import Mathlib

/- Verification of the activity-statistics aggregation engine of the
   Strava year-end summary repository: the functions `utc_to_ist` and
   `analyze_wrapped_stats` of app.py.

   Embedding conventions: Python floats are modelled as exact rationals,
   Python ints as integers.  A timezone-aware datetime value is modelled
   by the projections the aggregation code actually uses (local calendar
   day as an absolute day index, local hour, and the strftime renderings
   appearing in the code).  Python exceptions are modelled with `Except`:
   the aggregation either raises (`Except.error`) or returns its result
   dict (`Except.ok`).  The wall clock read by `datetime.now` inside the
   streak-liveness check is passed as an explicit `today` day index. -/

/-- An IST datetime abstracted to the projections `analyze_wrapped_stats`
uses: `day` is the local calendar date as an absolute day index (so the
Python date subtraction `(a - b).days` is `a.day - b.day`), `hour` is the
local hour of day, and the three string fields are the strftime
renderings `%Y-%m`, `%A` and the display format used in the output. -/
structure IstDateTime where
  day : Int
  hour : Nat
  monthKey : String
  weekdayName : String
  displayStr : String
deriving DecidableEq, Repr

/-- Abstract ISO-8601 UTC timestamp string: `datetime.fromisoformat`
together with the fixed UTC+5:30 conversion either yields an IST
datetime, or raises ValueError/TypeError (a malformed timestamp). -/
inductive StartDate where
  | valid (dt : IstDateTime)
  | malformed
deriving DecidableEq, Repr

/-- Input activity record, with the fields of the Strava activity dicts
that `analyze_wrapped_stats` reads. -/
structure Activity where
  type : String
  start_date : StartDate
  distance : Rat
  moving_time : Int
  name : String
deriving DecidableEq, Repr

/-- utc_to_ist (app.py): converts a UTC timestamp string to IST; on a
parse failure the except-branch logs the error and returns None. -/
def utc_to_ist : StartDate → Option IstDateTime
  | StartDate.valid dt => some dt
  | StartDate.malformed => none

/-- A run record after the conversion loop: `run.copy()` plus the
`ist_date` key, which is `None` when `utc_to_ist` failed. -/
structure IstRun where
  type : String
  start_date : StartDate
  distance : Rat
  moving_time : Int
  name : String
  ist_date : Option IstDateTime
deriving DecidableEq, Repr

/-- A run record whose `ist_date` is an actual datetime (the shape every
record provably has once the code got past the first attribute access on
`ist_date`). -/
structure LocRun where
  type : String
  start_date : StartDate
  distance : Rat
  moving_time : Int
  name : String
  ist_date : IstDateTime
deriving DecidableEq, Repr

/-- The filter `[a for a in activities if a['type'] == 'Run']`. -/
def runsOf (activities : List Activity) : List Activity :=
  activities.filter (fun a => a.type == "Run")

/-- One step of the conversion loop: `ist_run = run.copy();
ist_run['ist_date'] = utc_to_ist(run['start_date'])`. -/
def mkIstRun (a : Activity) : IstRun :=
  { type := a.type, start_date := a.start_date, distance := a.distance
  , moving_time := a.moving_time, name := a.name
  , ist_date := utc_to_ist a.start_date }

/-- The `ist_runs` list built by the conversion loop. -/
def istRunsOf (activities : List Activity) : List IstRun :=
  (runsOf activities).map mkIstRun

/-- Views the `ist_runs` list as a list of records with real datetimes;
`none` exactly when some record has `ist_date = None`, in which case the
first attribute access `run['ist_date'].strftime(...)` (in the monthly
breakdown loop) raises AttributeError. -/
def toLocList : List IstRun → Option (List LocRun)
  | [] => some []
  | r :: rs =>
    match r.ist_date, toLocList rs with
    | some d, some l =>
      some ({ type := r.type, start_date := r.start_date, distance := r.distance
            , moving_time := r.moving_time, name := r.name, ist_date := d } :: l)
    | _, _ => none

/-- The localized qualifying runs of an input list, when all timestamps
parsed. -/
def locRunsOf (activities : List Activity) : Option (List LocRun) :=
  toLocList (istRunsOf activities)

/-- The key of the `min(...)` call selecting the fastest run:
`x['moving_time'] / (x['distance'] / 1000) if x['distance'] > 0 else
float('inf')`; `none` models the float infinity sentinel. -/
def paceKey (r : LocRun) : Option Rat :=
  if 0 < r.distance then some ((r.moving_time : Rat) / (r.distance / 1000)) else none

/-- Strict comparison of pace keys, `none` being plus infinity. -/
def keyLt : Option Rat → Option Rat → Bool
  | some a, some b => decide (a < b)
  | some _, none => true
  | none, _ => false

/-- Python `min(ist_runs, key=...)`: scan left to right keeping the first
element with the strictly smallest key. -/
def pyMinRun (best : LocRun) : List LocRun → LocRun
  | [] => best
  | x :: xs => pyMinRun (if keyLt (paceKey x) (paceKey best) then x else best) xs

/-- Python `max(ist_runs, key=lambda x: x['distance'])`: scan keeping the
first element with the strictly largest distance. -/
def pyMaxRun (best : LocRun) : List LocRun → LocRun
  | [] => best
  | x :: xs => pyMaxRun (if best.distance < x.distance then x else best) xs

/-- Membership test of the early-morning filter:
`5 <= r['ist_date'].hour < 9`. -/
def isEarly (r : LocRun) : Bool :=
  decide (5 ≤ r.ist_date.hour) && decide (r.ist_date.hour < 9)

/-- Membership test of the night filter:
`20 <= r['ist_date'].hour or r['ist_date'].hour < 5`. -/
def isNight (r : LocRun) : Bool :=
  decide (20 ≤ r.ist_date.hour) || decide (r.ist_date.hour < 5)

/-- Insertion into a sorted list of day indices. -/
def insertSorted (d : Int) : List Int → List Int
  | [] => [d]
  | x :: xs => if d ≤ x then d :: x :: xs else x :: insertSorted d xs

/-- Ascending sort of day indices; composed with `List.dedup` this models
`sorted(set(...))` on the runs' local dates. -/
def sortDates (l : List Int) : List Int :=
  l.foldr insertSorted []

/-- The `dates = sorted(set(run['ist_date'].date() for run in ist_runs))`
list of distinct local run dates, ascending. -/
def runDates (l : List LocRun) : List Int :=
  sortDates ((l.map (fun r => r.ist_date.day)).dedup)

/-- The body of the streak loop for iterations past the first: given the
previous date, the running counter `temp_streak` and `max_streak`, walk
the remaining dates.  A date exactly one day after the previous one
increments the counter, anything else resets it to 1; `max_streak` is
updated to the running maximum at every step (the source updates it a
second time at a reset boundary, which is absorbed by the unconditional
update). -/
def streakWalk (prev : Int) (temp maxStreak : Nat) : List Int → Nat × Nat
  | [] => (maxStreak, temp)
  | d :: ds =>
    if d - prev = 1 then
      streakWalk d (temp + 1) (Nat.max maxStreak (temp + 1)) ds
    else
      streakWalk d 1 (Nat.max (Nat.max maxStreak temp) 1) ds

/-- The whole streak loop: returns the pair
`(max_streak, temp_streak)` after the walk; `(0, 0)` when there are no
dates (the loop body never runs). -/
def streaks : List Int → Nat × Nat
  | [] => (0, 0)
  | d :: ds => streakWalk d 1 (Nat.max 0 1) ds

/-- The liveness check after the walk:
`if dates and (today - dates[-1]).days <= 1: current_streak = temp_streak`
with `current_streak` initialized to 0. -/
def currentStreakCalc (today : Int) (dates : List Int) (temp : Nat) : Nat :=
  match dates.getLast? with
  | none => 0
  | some last => if today - last ≤ 1 then temp else 0

/-- One bucket of the monthly breakdown defaultdict:
`{'distance': .., 'count': .., 'time': ..}`. -/
structure MonthEntry where
  distance : Rat
  count : Nat
  time : Int
deriving DecidableEq, Repr

/-- Accumulates one run into the monthly-breakdown association list,
preserving first-insertion key order as a Python dict does. -/
def updateMonth (k : String) (d : Rat) (mt : Int) :
    List (String × MonthEntry) → List (String × MonthEntry)
  | [] => [(k, { distance := d, count := 1, time := mt })]
  | (k', e) :: rest =>
    if k' = k then
      (k', { distance := e.distance + d, count := e.count + 1, time := e.time + mt }) :: rest
    else
      (k', e) :: updateMonth k d mt rest

/-- The monthly breakdown loop: group by `strftime('%Y-%m')` of the local
date, accumulating distance in km, count, and moving time in seconds. -/
def monthlyStats (l : List LocRun) : List (String × MonthEntry) :=
  l.foldl (fun acc r => updateMonth r.ist_date.monthKey (r.distance / 1000) r.moving_time acc) []

/-- Distinct elements of a list in order of first occurrence (the key
iteration order of a Python Counter). -/
def firstOccurrences (l : List String) : List String :=
  l.foldl (fun acc x => if x ∈ acc then acc else acc ++ [x]) []

/-- Counter(...).most_common(1)[0] with the `('None', 0)` fallback: the
first key, in first-insertion order, whose count is not exceeded by any
other key (most_common sorts by count descending with a stable sort). -/
def favoriteDay (l : List LocRun) : String × Nat :=
  let names := l.map (fun r => r.ist_date.weekdayName)
  match firstOccurrences names with
  | [] => ("None", 0)
  | k :: ks =>
    let best := ks.foldl (fun b x => if names.count b < names.count x then x else b) k
    (best, names.count best)

/-- Floor of a rational as an integer. -/
def ratFloor (q : Rat) : Int :=
  ⌊q⌋

/-- Round half to even to the nearest integer, the Python 3 `round`
rule; exact rationals stand in for binary floats. -/
def roundHalfEven (q : Rat) : Int :=
  let n := ratFloor q
  let r := q - (n : Rat)
  if r < 1/2 then n
  else if 1/2 < r then n + 1
  else if n % 2 = 0 then n else n + 1

/-- Powers of ten as rationals. -/
def pow10 : Nat → Rat
  | 0 => 1
  | n + 1 => 10 * pow10 n

/-- Python `round(q, digits)`. -/
def pyRound (digits : Nat) (q : Rat) : Rat :=
  (roundHalfEven (q * pow10 digits) : Rat) / pow10 digits

/-- The Python exceptions `analyze_wrapped_stats` can raise on its
aggregation path. -/
inductive PyError where
  | attributeError
  | zeroDivisionError
  | valueError
deriving DecidableEq, Repr

/-- The `fastest_run` sub-dict of the result. -/
structure FastestInfo where
  name : String
  pace : Rat
  date : String
  distance : Rat
deriving DecidableEq, Repr

/-- The `longest_run` sub-dict of the result. -/
structure LongestInfo where
  name : String
  distance : Rat
  date : String
  time : Int
deriving DecidableEq, Repr

/-- The result dict of `analyze_wrapped_stats`. -/
structure WrappedStats where
  total_distance : Rat
  total_time_hours : Rat
  total_activities : Nat
  monthly_stats : List (String × MonthEntry)
  fastest_run : FastestInfo
  longest_run : LongestInfo
  early_bird_count : Nat
  night_owl_count : Nat
  current_streak : Nat
  max_streak : Nat
  favorite_day : String × Nat
  avg_pace : Rat
  ist_runs : List LocRun
deriving DecidableEq, Repr

/-- The successfully built result dict, for a non-empty localized run
list `f :: rest` whose selected fastest run has non-zero distance (the
case in which the pace division does not raise). -/
def statsFor (today : Int) (f : LocRun) (rest : List LocRun) : WrappedStats :=
  let ist_runs := f :: rest
  let total_distance := (ist_runs.map (fun r => r.distance)).sum / 1000
  let total_time : Int := (ist_runs.map (fun r => r.moving_time)).sum
  let fastest_run := pyMinRun f rest
  let longest_run := pyMaxRun f rest
  let dates := runDates ist_runs
  let walked := streaks dates
  { total_distance := pyRound 2 total_distance
  , total_time_hours := pyRound 1 ((total_time : Rat) / 3600)
  , total_activities := ist_runs.length
  , monthly_stats := monthlyStats ist_runs
  , fastest_run :=
      { name := fastest_run.name
      , pace := pyRound 2 (((fastest_run.moving_time : Rat) / 60) / (fastest_run.distance / 1000))
      , date := fastest_run.ist_date.displayStr
      , distance := pyRound 2 (fastest_run.distance / 1000) }
  , longest_run :=
      { name := longest_run.name
      , distance := pyRound 2 (longest_run.distance / 1000)
      , date := longest_run.ist_date.displayStr
      , time := longest_run.moving_time.fdiv 60 }
  , early_bird_count := (ist_runs.filter isEarly).length
  , night_owl_count := (ist_runs.filter isNight).length
  , current_streak := currentStreakCalc today dates walked.2
  , max_streak := walked.1
  , favorite_day := favoriteDay ist_runs
  , avg_pace :=
      if 0 < total_distance then pyRound 2 (((total_time : Rat) / 60) / total_distance) else 0
  , ist_runs := ist_runs }

/-- The aggregation after the conversion loop, as a function of the
localized run list.  A record whose `ist_date` is None (the `none` case)
makes the first strftime on it — in the monthly breakdown loop — raise
AttributeError.  `min` over an empty sequence would raise ValueError
(unreachable from `analyze_wrapped_stats`).  When the selected fastest
run has zero distance (all runs zero-distance, every pace key the
infinity sentinel), building the result dict raises ZeroDivisionError at
the fastest-pace division.  Otherwise the result dict is returned. -/
def analyzeCore (today : Int) : Option (List LocRun) → Except PyError (Option WrappedStats)
  | none => Except.error PyError.attributeError
  | some [] => Except.error PyError.valueError
  | some (f :: rest) =>
    if (pyMinRun f rest).distance = 0 then Except.error PyError.zeroDivisionError
    else Except.ok (some (statsFor today f rest))

/-- analyze_wrapped_stats (app.py).  Filters to runs; returns None when
there are none; otherwise converts every run to IST and aggregates. -/
def analyze_wrapped_stats (today : Int) (activities : List Activity) :
    Except PyError (Option WrappedStats) :=
  if (runsOf activities).isEmpty then Except.ok none
  else analyzeCore today (locRunsOf activities)

/-- The result with `current_streak` zeroed out: the part of the output
that does not depend on the wall clock. -/
def stripCurrentStreak (e : Except PyError (Option WrappedStats)) :
    Except PyError (Option WrappedStats) :=
  e.map (Option.map (fun s => { s with current_streak := 0 }))

/-- Hypothesis predicate for the gap-free streak claim: every date in the
list is exactly one day after the one before it. -/
def consecFrom (prev : Int) : List Int → Bool
  | [] => true
  | d :: ds => decide (d = prev + 1) && consecFrom d ds

/-- A date list with no gaps: consecutive ascending days. -/
def gapFree : List Int → Bool
  | [] => true
  | d :: ds => consecFrom d ds

/-- Concrete IST datetime on absolute day 10, 6 AM local. -/
def dtA : IstDateTime :=
  { day := 10, hour := 6, monthKey := "2025-01", weekdayName := "Monday"
  , displayStr := "06 Jan 2025, 06:00 AM IST" }

/-- Concrete IST datetime on absolute day 11, 9 PM local. -/
def dtNight : IstDateTime :=
  { day := 11, hour := 21, monthKey := "2025-01", weekdayName := "Tuesday"
  , displayStr := "07 Jan 2025, 09:00 PM IST" }

/-- A well-formed 5 km run at 6 AM on day 10. -/
def actA : Activity :=
  { type := "Run", start_date := StartDate.valid dtA, distance := 5000
  , moving_time := 1500, name := "Morning Run" }

/-- The localized form of `actA`. -/
def locA : LocRun :=
  { type := "Run", start_date := StartDate.valid dtA, distance := 5000
  , moving_time := 1500, name := "Morning Run", ist_date := dtA }

/-- A qualifying run with zero distance (stationary workout). -/
def zeroAct : Activity :=
  { type := "Run", start_date := StartDate.valid dtA, distance := 0
  , moving_time := 600, name := "Stationary" }

/-- The localized form of `zeroAct`. -/
def zeroLoc : LocRun :=
  { type := "Run", start_date := StartDate.valid dtA, distance := 0
  , moving_time := 600, name := "Stationary", ist_date := dtA }

/-- A qualifying run whose start timestamp does not parse. -/
def badAct : Activity :=
  { type := "Run", start_date := StartDate.malformed, distance := 5000
  , moving_time := 1500, name := "Bad timestamp" }

/-- A non-run activity. -/
def rideAct : Activity :=
  { type := "Ride", start_date := StartDate.valid dtA, distance := 20000
  , moving_time := 3600, name := "Evening Ride" }

/-- A qualifying run of 1234 m, whose total distance in km does not
survive the output rounding to two decimals. -/
def oddAct : Activity :=
  { type := "Run", start_date := StartDate.valid dtA, distance := 1234
  , moving_time := 600, name := "Short Run" }

/-- The localized form of `oddAct`. -/
def oddLoc : LocRun :=
  { type := "Run", start_date := StartDate.valid dtA, distance := 1234
  , moving_time := 600, name := "Short Run", ist_date := dtA }

/-- A zero-distance run at 9 PM (a night run by the hour rule). -/
def nightZeroAct : Activity :=
  { type := "Run", start_date := StartDate.valid dtNight, distance := 0
  , moving_time := 600, name := "Night Stationary" }

/-- The localized form of `nightZeroAct`. -/
def nightZeroLoc : LocRun :=
  { type := "Run", start_date := StartDate.valid dtNight, distance := 0
  , moving_time := 600, name := "Night Stationary", ist_date := dtNight }

lemma keyLt_irrefl (a : Option Rat) : keyLt a a = false := by
  cases a with
  | none => rfl
  | some q => simp [keyLt]

lemma keyLt_trans {a b c : Option Rat} (h1 : keyLt a b = true) (h2 : keyLt b c = true) :
    keyLt a c = true := by
  cases a with
  | none => simp [keyLt] at h1
  | some qa =>
    cases b with
    | none => simp [keyLt] at h2
    | some qb =>
      cases c with
      | none => rfl
      | some qc =>
        simp [keyLt] at h1 h2 ⊢
        exact lt_trans h1 h2

lemma keyLt_false_trans {a b c : Option Rat} (h1 : keyLt a b = false) (h2 : keyLt a c = true) :
    keyLt b c = true := by
  cases a with
  | none =>
    cases b with
    | none => exact h2
    | some qb => simp [keyLt] at h2
  | some qa =>
    cases b with
    | none => simp [keyLt] at h1
    | some qb =>
      cases c with
      | none => rfl
      | some qc =>
        simp [keyLt] at h1 h2 ⊢
        exact lt_of_le_of_lt h1 h2

lemma pyMinRun_not_lt (xs : List LocRun) :
    ∀ best r, r ∈ best :: xs → keyLt (paceKey r) (paceKey (pyMinRun best xs)) = false := by
  induction xs with
  | nil =>
    intro best r hr
    have : r = best := by simpa using hr
    subst this
    simp [pyMinRun, keyLt_irrefl]
  | cons x xs ih =>
    intro best r hr
    by_cases hx : keyLt (paceKey x) (paceKey best) = true
    · have hstep : pyMinRun best (x :: xs) = pyMinRun x xs := by
        simp [pyMinRun, hx]
      rw [hstep]
      rcases List.mem_cons.mp hr with hb | hr2
      · subst hb
        have hxm := ih x x (List.mem_cons_self x xs)
        by_contra hc
        have hc' : keyLt (paceKey r) (paceKey (pyMinRun x xs)) = true := by
          cases hval : keyLt (paceKey r) (paceKey (pyMinRun x xs)) with
          | true => rfl
          | false => exact absurd hval hc
        exact absurd (keyLt_trans hx hc') (by rw [hxm]; simp)
      · exact ih x r hr2
    · have hx' : keyLt (paceKey x) (paceKey best) = false := by
        cases hval : keyLt (paceKey x) (paceKey best) with
        | true => exact absurd hval hx
        | false => rfl
      have hstep : pyMinRun best (x :: xs) = pyMinRun best xs := by
        simp [pyMinRun, hx']
      rw [hstep]
      rcases List.mem_cons.mp hr with hb | hr2
      · rw [hb]
        exact ih best best (List.mem_cons_self best xs)
      · rcases List.mem_cons.mp hr2 with hxx | hr3
        · subst hxx
          have hbm := ih best best (List.mem_cons_self best xs)
          by_contra hc
          have hc' : keyLt (paceKey r) (paceKey (pyMinRun best xs)) = true := by
            cases hval : keyLt (paceKey r) (paceKey (pyMinRun best xs)) with
            | true => rfl
            | false => exact absurd hval hc
          exact absurd (keyLt_false_trans hx' hc') (by rw [hbm]; simp)
        · exact ih best r (List.mem_cons_of_mem best hr3)

lemma pyMaxRun_ge (xs : List LocRun) :
    ∀ best r, r ∈ best :: xs → r.distance ≤ (pyMaxRun best xs).distance := by
  induction xs with
  | nil =>
    intro best r hr
    have : r = best := by simpa using hr
    subst this
    simp [pyMaxRun]
  | cons x xs ih =>
    intro best r hr
    have hbest' : best.distance ≤ (if best.distance < x.distance then x else best).distance ∧
        x.distance ≤ (if best.distance < x.distance then x else best).distance := by
      by_cases hlt : best.distance < x.distance
      · simp [hlt]
        exact le_of_lt hlt
      · simp [hlt]
        exact le_of_not_lt hlt
    have hstep : pyMaxRun best (x :: xs) =
        pyMaxRun (if best.distance < x.distance then x else best) xs := by
      simp [pyMaxRun]
    rw [hstep]
    have hself := ih (if best.distance < x.distance then x else best)
      (if best.distance < x.distance then x else best)
      (List.mem_cons_self _ xs)
    rcases List.mem_cons.mp hr with hb | hr2
    · subst hb
      exact le_trans hbest'.1 hself
    · rcases List.mem_cons.mp hr2 with hxx | hr3
      · subst hxx
        exact le_trans hbest'.2 hself
      · exact ih _ r (List.mem_cons_of_mem _ hr3)

lemma streakWalk_snd_le (l : List Int) :
    ∀ prev temp maxStreak, (streakWalk prev temp maxStreak l).2 ≤ temp + l.length := by
  induction l with
  | nil => intro prev temp maxStreak; simp [streakWalk]
  | cons d ds ih =>
    intro prev temp maxStreak
    by_cases hd : d - prev = 1
    · simp only [streakWalk, if_pos hd, List.length_cons]
      have := ih d (temp + 1) (Nat.max maxStreak (temp + 1))
      omega
    · simp only [streakWalk, if_neg hd, List.length_cons]
      have := ih d 1 (Nat.max (Nat.max maxStreak temp) 1)
      omega

lemma streakWalk_fst_le (l : List Int) :
    ∀ prev temp maxStreak K, maxStreak ≤ K → temp + l.length ≤ K →
      (streakWalk prev temp maxStreak l).1 ≤ K := by
  induction l with
  | nil =>
    intro prev temp maxStreak K hm ht
    simpa [streakWalk] using hm
  | cons d ds ih =>
    intro prev temp maxStreak K hm ht
    simp only [List.length_cons] at ht
    by_cases hd : d - prev = 1
    · simp only [streakWalk, if_pos hd]
      exact ih d (temp + 1) _ K (Nat.max_le.mpr ⟨hm, by omega⟩) (by omega)
    · simp only [streakWalk, if_neg hd]
      exact ih d 1 _ K
        (Nat.max_le.mpr ⟨Nat.max_le.mpr ⟨hm, by omega⟩, by omega⟩) (by omega)

lemma streakWalk_snd_le_fst (l : List Int) :
    ∀ prev temp maxStreak, temp ≤ maxStreak →
      (streakWalk prev temp maxStreak l).2 ≤ (streakWalk prev temp maxStreak l).1 := by
  induction l with
  | nil => intro prev temp maxStreak h; simpa [streakWalk] using h
  | cons d ds ih =>
    intro prev temp maxStreak h
    by_cases hd : d - prev = 1
    · simp only [streakWalk, if_pos hd]
      exact ih d (temp + 1) (Nat.max maxStreak (temp + 1)) (Nat.le_max_right _ _)
    · simp only [streakWalk, if_neg hd]
      exact ih d 1 (Nat.max (Nat.max maxStreak temp) 1) (Nat.le_max_right _ _)

lemma streakWalk_one_le_snd (l : List Int) :
    ∀ prev temp maxStreak, 1 ≤ temp → 1 ≤ (streakWalk prev temp maxStreak l).2 := by
  induction l with
  | nil => intro prev temp maxStreak h; simpa [streakWalk] using h
  | cons d ds ih =>
    intro prev temp maxStreak h
    by_cases hd : d - prev = 1
    · simp only [streakWalk, if_pos hd]
      exact ih d (temp + 1) _ (by omega)
    · simp only [streakWalk, if_neg hd]
      exact ih d 1 _ le_rfl

lemma streakWalk_consec (l : List Int) :
    ∀ prev temp maxStreak, consecFrom prev l = true → temp ≤ maxStreak →
      streakWalk prev temp maxStreak l = (Nat.max maxStreak (temp + l.length), temp + l.length) := by
  induction l with
  | nil =>
    intro prev temp maxStreak hc hle
    simp only [streakWalk, List.length_nil, Nat.add_zero]
    have : Nat.max maxStreak temp = maxStreak := Nat.max_eq_left hle
    rw [this]
  | cons d ds ih =>
    intro prev temp maxStreak hc hle
    have hc' : d = prev + 1 ∧ consecFrom d ds = true := by
      simpa [consecFrom] using hc
    have hd : d - prev = 1 := by omega
    simp only [streakWalk, if_pos hd, List.length_cons]
    rw [ih d (temp + 1) (Nat.max maxStreak (temp + 1)) hc'.2 (Nat.le_max_right _ _)]
    have h1 : Nat.max (Nat.max maxStreak (temp + 1)) (temp + 1 + ds.length) =
        Nat.max maxStreak (temp + (ds.length + 1)) := by
      simp only [Nat.max_def]
      split_ifs <;> omega
    have h2 : temp + 1 + ds.length = temp + (ds.length + 1) := by omega
    rw [h1, h2]

lemma streaks_snd_le_fst (l : List Int) : (streaks l).2 ≤ (streaks l).1 := by
  cases l with
  | nil => simp [streaks]
  | cons d ds => exact streakWalk_snd_le_fst ds d 1 (Nat.max 0 1) (Nat.le_max_right 0 1)

lemma streaks_fst_le_length (l : List Int) : (streaks l).1 ≤ l.length := by
  cases l with
  | nil => simp [streaks]
  | cons d ds =>
    have h := streakWalk_fst_le ds d 1 (Nat.max 0 1) (ds.length + 1)
      (Nat.max_le.mpr ⟨by omega, by omega⟩) (by omega)
    simpa [streaks, List.length_cons] using h

lemma streaks_snd_pos (d : Int) (ds : List Int) : 1 ≤ (streaks (d :: ds)).2 :=
  streakWalk_one_le_snd ds d 1 (Nat.max 0 1) le_rfl

lemma insertSorted_length (d : Int) (l : List Int) :
    (insertSorted d l).length = l.length + 1 := by
  induction l with
  | nil => rfl
  | cons x xs ih =>
    by_cases hd : d ≤ x
    · simp [insertSorted, if_pos hd]
    · simp only [insertSorted, if_neg hd, List.length_cons, ih]

lemma sortDates_length (l : List Int) : (sortDates l).length = l.length := by
  induction l with
  | nil => rfl
  | cons x xs ih =>
    simp only [sortDates, List.foldr_cons] at *
    rw [insertSorted_length, ih, List.length_cons]

lemma currentStreakCalc_le (today : Int) (dates : List Int) (temp : Nat) :
    currentStreakCalc today dates temp ≤ temp := by
  unfold currentStreakCalc
  cases h : dates.getLast? with
  | none => exact Nat.zero_le _
  | some last =>
    by_cases hc : today - last ≤ 1 <;> simp [hc]

lemma toLocList_some (rs : List IstRun) (l : List LocRun) (h : toLocList rs = some l) :
    l.map (fun r => r.distance) = rs.map (fun r => r.distance) ∧
    l.map (fun r => r.moving_time) = rs.map (fun r => r.moving_time) := by
  induction rs generalizing l with
  | nil =>
    simp only [toLocList, Option.some_inj] at h
    subst h
    exact ⟨rfl, rfl⟩
  | cons r rs ih =>
    simp only [toLocList] at h
    cases hd : r.ist_date with
    | none => rw [hd] at h; exact absurd h (by simp)
    | some d =>
      cases ht : toLocList rs with
      | none => rw [hd, ht] at h; exact absurd h (by simp)
      | some l2 =>
        rw [hd, ht] at h
        simp only [Option.some_inj] at h
        subst h
        have := ih l2 ht
        simp only [List.map_cons]
        exact ⟨by rw [this.1], by rw [this.2]⟩

lemma analyze_ok_shape (today : Int) (acts : List Activity) (s : WrappedStats)
    (h : analyze_wrapped_stats today acts = Except.ok (some s)) :
    ∃ f rest, locRunsOf acts = some (f :: rest) ∧
      ¬ (pyMinRun f rest).distance = 0 ∧ s = statsFor today f rest := by
  unfold analyze_wrapped_stats at h
  by_cases he : (runsOf acts).isEmpty
  · rw [if_pos he] at h
    exact absurd h (by simp)
  · rw [if_neg he] at h
    cases hloc : locRunsOf acts with
    | none =>
      rw [hloc] at h
      exact absurd h (by simp [analyzeCore])
    | some l =>
      rw [hloc] at h
      cases l with
      | nil => exact absurd h (by simp [analyzeCore])
      | cons f rest =>
        by_cases hz : (pyMinRun f rest).distance = 0
        · rw [show analyzeCore today (some (f :: rest)) =
            Except.error PyError.zeroDivisionError by simp [analyzeCore, hz]] at h
          exact absurd h (by simp)
        · refine ⟨f, rest, rfl, hz, ?_⟩
          rw [show analyzeCore today (some (f :: rest)) =
            Except.ok (some (statsFor today f rest)) by simp [analyzeCore, hz]] at h
          simpa using h.symm

lemma statsFor_current (today : Int) (f : LocRun) (rest : List LocRun) :
    (statsFor today f rest).current_streak =
      currentStreakCalc today (runDates (f :: rest)) (streaks (runDates (f :: rest))).2 := rfl

lemma statsFor_max (today : Int) (f : LocRun) (rest : List LocRun) :
    (statsFor today f rest).max_streak = (streaks (runDates (f :: rest))).1 := rfl

lemma statsFor_early (today : Int) (f : LocRun) (rest : List LocRun) :
    (statsFor today f rest).early_bird_count = ((f :: rest).filter isEarly).length := rfl

lemma statsFor_night (today : Int) (f : LocRun) (rest : List LocRun) :
    (statsFor today f rest).night_owl_count = ((f :: rest).filter isNight).length := rfl

lemma statsFor_total_distance (today : Int) (f : LocRun) (rest : List LocRun) :
    (statsFor today f rest).total_distance =
      pyRound 2 (((f :: rest).map (fun r => r.distance)).sum / 1000) := rfl

lemma statsFor_total_time (today : Int) (f : LocRun) (rest : List LocRun) :
    (statsFor today f rest).total_time_hours =
      pyRound 1 (((((f :: rest).map (fun r => r.moving_time)).sum : Int) : Rat) / 3600) := rfl

lemma statsFor_avg (today : Int) (f : LocRun) (rest : List LocRun) :
    (statsFor today f rest).avg_pace =
      (if 0 < ((f :: rest).map (fun r => r.distance)).sum / 1000 then
        pyRound 2 ((((((f :: rest).map (fun r => r.moving_time)).sum : Int) : Rat) / 60) /
          (((f :: rest).map (fun r => r.distance)).sum / 1000))
      else 0) := rfl

lemma locRuns_map_distance (acts : List Activity) (l : List LocRun)
    (hl : locRunsOf acts = some l) :
    l.map (fun r => r.distance) = (runsOf acts).map (fun a => a.distance) := by
  have h := (toLocList_some (istRunsOf acts) l hl).1
  rw [h, istRunsOf, List.map_map]
  rfl

lemma locRuns_map_moving_time (acts : List Activity) (l : List LocRun)
    (hl : locRunsOf acts = some l) :
    l.map (fun r => r.moving_time) = (runsOf acts).map (fun a => a.moving_time) := by
  have h := (toLocList_some (istRunsOf acts) l hl).2
  rw [h, istRunsOf, List.map_map]
  rfl

/-- C1: evaluation of the code at the failing input.  On an input whose
only qualifying run has distance_meters = 0 the pace of every run is the
infinity sentinel, `min` selects the zero-distance run as fastest, and
building the result dict raises ZeroDivisionError at the fastest-pace
division — contradicting the claim that the call completes without an
arithmetic fault and that a zero-distance run is never selected as
fastest. -/
theorem C1_all_zero_distance_raises :
    analyze_wrapped_stats 0 [zeroAct] = Except.error PyError.zeroDivisionError ∧
    pyMinRun zeroLoc [] = zeroLoc ∧ zeroLoc.distance = 0 :=
  ⟨rfl, rfl, rfl⟩

/-- C2: evaluation of the code at the failing input.  An input with one
well-formed run and one run whose timestamp does not parse makes the
whole call raise AttributeError (the record is kept with ist_date = None
and the monthly-breakdown strftime dereferences it) — contradicting the
claim that the malformed record is excluded and the remaining records
are still aggregated. -/
theorem C2_malformed_timestamp_aborts :
    analyze_wrapped_stats 0 [actA, badAct] = Except.error PyError.attributeError ∧
    utc_to_ist badAct.start_date = none :=
  ⟨rfl, rfl⟩

/-- C3: the streak walk initializes the counter to 1 at the first date,
increments on a gap of exactly one day, resets to 1 otherwise, and keeps
the running maximum at every step.  Consequently an empty date set gives
max_streak = 0 and current_streak = 0 with no iteration, a singleton
gives max_streak = 1, and a non-empty gap-free date set gives a
max_streak equal to the number of dates. -/
theorem C3_streak_walk_correct :
    streaks ([] : List Int) = (0, 0) ∧
    (∀ today temp, currentStreakCalc today [] temp = 0) ∧
    (∀ d : Int, streaks [d] = (1, 1)) ∧
    (∀ l : List Int, l ≠ [] → gapFree l = true → (streaks l).1 = l.length) := by
  refine ⟨rfl, fun today temp => rfl, fun d => rfl, ?_⟩
  intro l hne hgap
  cases l with
  | nil => exact absurd rfl hne
  | cons d ds =>
    have hc : consecFrom d ds = true := hgap
    have h := streakWalk_consec ds d 1 (Nat.max 0 1) hc (Nat.le_max_right 0 1)
    simp only [streaks, h, List.length_cons]
    have : Nat.max (Nat.max 0 1) (1 + ds.length) = ds.length + 1 := by
      simp only [Nat.max_def]
      split_ifs <;> omega
    rw [this]

/-- Witness for C3 at the concrete gap-free date list 5, 6, 7. -/
theorem C3_streak_walk_correct_witness :
    gapFree ([5, 6, 7] : List Int) = true ∧
    (streaks ([5, 6, 7] : List Int)).1 = 3 := by
  refine ⟨by decide, ?_⟩
  exact (C3_streak_walk_correct.2.2.2 [5, 6, 7] (by decide) (by decide) : _)

/-- C5: an input with no record of activity type Run makes
analyze_wrapped_stats return None (modelled as ok none) without
raising. -/
theorem C5_no_runs_returns_none (today : Int) (acts : List Activity)
    (h : ∀ a ∈ acts, ¬ a.type = "Run") :
    analyze_wrapped_stats today acts = Except.ok none := by
  unfold analyze_wrapped_stats
  have hr : runsOf acts = [] := by
    unfold runsOf
    rw [List.filter_eq_nil_iff]
    intro a ha
    simpa using h a ha
  rw [hr]
  rfl

/-- Witness for C5 at an input containing only a ride. -/
theorem C5_no_runs_returns_none_witness :
    analyze_wrapped_stats 0 [rideAct] = Except.ok none :=
  C5_no_runs_returns_none 0 [rideAct] (by decide)

/-- C4 counterexample: a single qualifying run on local day 10, evaluated
with local today = 5.  The most recent run date (10) is neither today (5)
nor yesterday (4), yet current_streak equals the final counter value 1
instead of 0, because the code accepts any date difference of at most one
day — including future dates. -/
theorem C4_liveness_counterexample :
    (analyze_wrapped_stats 5 [actA]).map (Option.map (fun s => s.current_streak)) =
      Except.ok (some 1) ∧
    (streaks (runDates [locA])).2 = 1 ∧
    runDates [locA] = [10] ∧
    ¬ ((10 : Int) = 5 ∨ (10 : Int) = 5 - 1) :=
  ⟨rfl, rfl, rfl, by decide⟩

/-- C4 amended: for a non-empty set of qualifying run dates,
current_streak equals the (positive) final value of the running counter
if and only if the most recent local run date is at most one day before
today — that is, today, yesterday, or any future date; otherwise
current_streak is 0. -/
theorem C4_liveness_amended (today : Int) (acts : List Activity) (s : WrappedStats)
    (f : LocRun) (rest : List LocRun)
    (hl : locRunsOf acts = some (f :: rest))
    (h : analyze_wrapped_stats today acts = Except.ok (some s))
    (last : Int) (hlast : (runDates (f :: rest)).getLast? = some last) :
    1 ≤ (streaks (runDates (f :: rest))).2 ∧
    (today - last ≤ 1 → s.current_streak = (streaks (runDates (f :: rest))).2) ∧
    (1 < today - last → s.current_streak = 0) := by
  obtain ⟨f2, rest2, hl2, hz, hs⟩ := analyze_ok_shape today acts s h
  rw [hl] at hl2
  have hcons : f :: rest = f2 :: rest2 := Option.some_inj.mp hl2
  have hf2 : f2 = f := (List.cons.injEq _ _ _ _ ▸ hcons).1.symm
  have hrest2 : rest2 = rest := (List.cons.injEq _ _ _ _ ▸ hcons).2.symm
  rw [hf2, hrest2] at hs
  subst hs
  refine ⟨?_, ?_, ?_⟩
  · cases hdates : runDates (f :: rest) with
    | nil => rw [hdates] at hlast; exact absurd hlast (by simp)
    | cons d ds => exact streaks_snd_pos d ds
  · intro hle
    rw [statsFor_current]
    unfold currentStreakCalc
    rw [hlast]
    simp [hle]
  · intro hgt
    rw [statsFor_current]
    unfold currentStreakCalc
    rw [hlast]
    have : ¬ today - last ≤ 1 := by omega
    simp [this]

/-- Witness for C4 amended at a single run on day 10 with today = 10. -/
theorem C4_liveness_amended_witness :
    1 ≤ (streaks (runDates [locA])).2 ∧
    (statsFor 10 locA []).current_streak = (streaks (runDates [locA])).2 := by
  have h := C4_liveness_amended 10 [actA] (statsFor 10 locA []) locA [] rfl rfl 10 rfl
  exact ⟨h.1, h.2.1 (by norm_num)⟩

/-- C9 counterexample: the same single-run input evaluated at two
different wall-clock dates gives different results (current_streak 1
versus 0), so the output is not a function of the input records alone:
two calls to the source function, which reads datetime.now internally,
can differ even on the same unmodified input. -/
theorem C9_idempotence_counterexample :
    ¬ (analyze_wrapped_stats 10 [actA] = analyze_wrapped_stats 20 [actA]) := by
  intro hEq
  have h1 : (analyze_wrapped_stats 10 [actA]).map (Option.map (fun s => s.current_streak)) =
      Except.ok (some 1) := rfl
  have h2 : (analyze_wrapped_stats 20 [actA]).map (Option.map (fun s => s.current_streak)) =
      Except.ok (some 0) := rfl
  rw [hEq, h2] at h1
  exact absurd h1 (by simp)

/-- C9 amended: the aggregation is a pure function of the input list and
of the wall-clock date, and the clock influences nothing but
current_streak: with current_streak zeroed out, two calls on the same
unmodified input agree for every pair of evaluation dates (and with the
same evaluation date the full outputs are identical).  The embedding is
pure because the source copies each record before augmenting it, so input
records are never mutated. -/
theorem C9_pure_up_to_clock (t1 t2 : Int) (acts : List Activity) :
    stripCurrentStreak (analyze_wrapped_stats t1 acts) =
      stripCurrentStreak (analyze_wrapped_stats t2 acts) := by
  unfold analyze_wrapped_stats
  by_cases he : (runsOf acts).isEmpty
  · simp only [if_pos he]
  · simp only [if_neg he]
    cases hloc : locRunsOf acts with
    | none => rfl
    | some l =>
      cases l with
      | nil => rfl
      | cons f rest =>
        by_cases hz : (pyMinRun f rest).distance = 0
        · simp only [analyzeCore, if_pos hz]
        · simp only [analyzeCore, if_neg hz]
          rfl

/-- C6: for every returned summary, the selected fastest run's pace
(moving_time over distance) is at most the pace of every qualifying run
with non-zero distance, and the selected longest run's distance is at
least the distance of every qualifying run. -/
theorem C6_fastest_longest (today : Int) (acts : List Activity) (s : WrappedStats)
    (f : LocRun) (rest : List LocRun)
    (hl : locRunsOf acts = some (f :: rest))
    (h : analyze_wrapped_stats today acts = Except.ok (some s)) :
    ∀ r ∈ f :: rest,
      (0 < r.distance →
        ((pyMinRun f rest).moving_time : Rat) / (pyMinRun f rest).distance ≤
          (r.moving_time : Rat) / r.distance) ∧
      r.distance ≤ (pyMaxRun f rest).distance := by
  obtain ⟨f2, rest2, hl2, hz, hs⟩ := analyze_ok_shape today acts s h
  rw [hl] at hl2
  have hcons : f :: rest = f2 :: rest2 := Option.some_inj.mp hl2
  have hf2 : f2 = f := (List.cons.injEq _ _ _ _ ▸ hcons).1.symm
  have hrest2 : rest2 = rest := (List.cons.injEq _ _ _ _ ▸ hcons).2.symm
  rw [hf2, hrest2] at hz
  intro r hr
  refine ⟨?_, pyMaxRun_ge rest f r hr⟩
  intro hrd
  have hinv := pyMinRun_not_lt rest f r hr
  set m := pyMinRun f rest with hm
  have hkr : paceKey r = some ((r.moving_time : Rat) / (r.distance / 1000)) := by
    unfold paceKey
    rw [if_pos hrd]
  rcases lt_trichotomy m.distance 0 with hmd | hmd | hmd
  · have hkm : paceKey m = none := by
      unfold paceKey
      rw [if_neg (by exact not_lt.mpr (le_of_lt hmd))]
    rw [hkr, hkm] at hinv
    simp [keyLt] at hinv
  · exact absurd hmd hz
  · have hkm : paceKey m = some ((m.moving_time : Rat) / (m.distance / 1000)) := by
      unfold paceKey
      rw [if_pos hmd]
    rw [hkr, hkm] at hinv
    have hle : (m.moving_time : Rat) / (m.distance / 1000) ≤
        (r.moving_time : Rat) / (r.distance / 1000) := by
      have : ¬ ((r.moving_time : Rat) / (r.distance / 1000) <
          (m.moving_time : Rat) / (m.distance / 1000)) := by
        simpa [keyLt] using hinv
      exact le_of_not_lt this
    have hform : ∀ (mt : Rat) (d : Rat), mt / (d / 1000) = 1000 * (mt / d) := by
      intro mt d
      rw [div_div_eq_mul_div, mul_comm mt 1000, mul_div_assoc]
    rw [hform, hform] at hle
    have h1000 : (0 : Rat) < 1000 := by norm_num
    exact le_of_mul_le_mul_left hle h1000

/-- Witness for C6 at a single-run input. -/
theorem C6_fastest_longest_witness :
    ((pyMinRun locA []).moving_time : Rat) / (pyMinRun locA []).distance ≤
      (locA.moving_time : Rat) / locA.distance ∧
    locA.distance ≤ (pyMaxRun locA []).distance := by
  have h := C6_fastest_longest 0 [actA] (statsFor 0 locA []) locA [] rfl rfl locA
    (List.mem_cons_self locA [])
  refine ⟨h.1 ?_, h.2⟩
  show (0 : Rat) < 5000
  norm_num

/-- C8: for every returned summary, early_bird_count and night_owl_count
count exactly the runs matching the hour filters, a run is early exactly
when its local hour h satisfies 5 <= h < 9, night exactly when h >= 20 or
h < 5, and runs at hours 9 through 19 are counted in neither. -/
theorem C8_hour_classification (today : Int) (acts : List Activity) (s : WrappedStats)
    (f : LocRun) (rest : List LocRun)
    (hl : locRunsOf acts = some (f :: rest))
    (h : analyze_wrapped_stats today acts = Except.ok (some s)) :
    s.early_bird_count = ((f :: rest).filter isEarly).length ∧
    s.night_owl_count = ((f :: rest).filter isNight).length ∧
    (∀ r : LocRun,
      (isEarly r = true ↔ 5 ≤ r.ist_date.hour ∧ r.ist_date.hour < 9) ∧
      (isNight r = true ↔ 20 ≤ r.ist_date.hour ∨ r.ist_date.hour < 5) ∧
      (9 ≤ r.ist_date.hour → r.ist_date.hour ≤ 19 →
        isEarly r = false ∧ isNight r = false)) := by
  obtain ⟨f2, rest2, hl2, hz, hs⟩ := analyze_ok_shape today acts s h
  rw [hl] at hl2
  have hcons : f :: rest = f2 :: rest2 := Option.some_inj.mp hl2
  have hf2 : f2 = f := (List.cons.injEq _ _ _ _ ▸ hcons).1.symm
  have hrest2 : rest2 = rest := (List.cons.injEq _ _ _ _ ▸ hcons).2.symm
  rw [hf2, hrest2] at hs
  subst hs
  refine ⟨statsFor_early today f rest, statsFor_night today f rest, ?_⟩
  intro r
  refine ⟨?_, ?_, ?_⟩
  · simp [isEarly]
  · simp [isNight]
  · intro h9 h19
    constructor
    · simp only [isEarly, Bool.and_eq_false_iff, decide_eq_false_iff_not]
      right
      omega
    · simp only [isNight, Bool.or_eq_false_iff, decide_eq_false_iff_not]
      exact ⟨by omega, by omega⟩

/-- Witness for C8 at an input with a 6 AM run and a 9 PM zero-distance
run. -/
theorem C8_hour_classification_witness :
    (statsFor 0 locA [nightZeroLoc]).early_bird_count =
      (([locA, nightZeroLoc]).filter isEarly).length ∧
    (statsFor 0 locA [nightZeroLoc]).night_owl_count =
      (([locA, nightZeroLoc]).filter isNight).length ∧
    isEarly locA = true ∧ isNight nightZeroLoc = true := by
  have h := C8_hour_classification 0 [actA, nightZeroAct] (statsFor 0 locA [nightZeroLoc])
    locA [nightZeroLoc] rfl rfl
  refine ⟨h.1, h.2.1, ?_, ?_⟩
  · exact (h.2.2 locA).1.mpr (by constructor <;> norm_num [locA, dtA])
  · exact (h.2.2 nightZeroLoc).2.1.mpr (Or.inl (by norm_num [nightZeroLoc, dtNight]))

/-- C10: for every returned summary, current_streak is at most max_streak
and max_streak is at most the number of distinct local calendar dates
among the qualifying runs. -/
theorem C10_streak_invariants (today : Int) (acts : List Activity) (s : WrappedStats)
    (l : List LocRun) (hl : locRunsOf acts = some l)
    (h : analyze_wrapped_stats today acts = Except.ok (some s)) :
    s.current_streak ≤ s.max_streak ∧
    s.max_streak ≤ ((l.map (fun r => r.ist_date.day)).toFinset).card := by
  obtain ⟨f, rest, hl2, hz, hs⟩ := analyze_ok_shape today acts s h
  rw [hl] at hl2
  have hlfr : l = f :: rest := Option.some_inj.mp hl2
  subst hlfr
  subst hs
  constructor
  · rw [statsFor_current, statsFor_max]
    exact le_trans (currentStreakCalc_le today _ _) (streaks_snd_le_fst _)
  · rw [statsFor_max]
    have h1 := streaks_fst_le_length (runDates (f :: rest))
    have h2 : (runDates (f :: rest)).length =
        (((f :: rest).map (fun r => r.ist_date.day)).dedup).length := by
      unfold runDates
      exact sortDates_length _
    have h3 : (((f :: rest).map (fun r => r.ist_date.day)).toFinset).card =
        (((f :: rest).map (fun r => r.ist_date.day)).dedup).length :=
      List.card_toFinset _
    rw [h3]
    omega

/-- Witness for C10 at a single-run input. -/
theorem C10_streak_invariants_witness :
    (statsFor 0 locA []).current_streak ≤ (statsFor 0 locA []).max_streak ∧
    (statsFor 0 locA []).max_streak ≤ (([locA].map (fun r => r.ist_date.day)).toFinset).card :=
  C10_streak_invariants 0 [actA] (statsFor 0 locA []) [locA] rfl rfl

/-- C7 amended: for every returned summary, total_distance equals the sum
of the qualifying runs' distances divided by 1000 and then rounded to two
decimal places (round half to even), total_time_hours equals the sum of
moving times divided by 3600 rounded to one decimal place, and avg_pace
equals the unrounded total time in minutes divided by the unrounded total
distance in km, rounded to two decimals, and 0 when the total distance is
not positive. -/
theorem C7_totals_amended (today : Int) (acts : List Activity) (s : WrappedStats)
    (h : analyze_wrapped_stats today acts = Except.ok (some s)) :
    s.total_distance = pyRound 2 (((runsOf acts).map (fun a => a.distance)).sum / 1000) ∧
    s.total_time_hours =
      pyRound 1 (((((runsOf acts).map (fun a => a.moving_time)).sum : Int) : Rat) / 3600) ∧
    (((runsOf acts).map (fun a => a.distance)).sum / 1000 ≤ 0 → s.avg_pace = 0) ∧
    (0 < ((runsOf acts).map (fun a => a.distance)).sum / 1000 →
      s.avg_pace = pyRound 2 ((((((runsOf acts).map (fun a => a.moving_time)).sum : Int) : Rat) / 60) /
        (((runsOf acts).map (fun a => a.distance)).sum / 1000))) := by
  obtain ⟨f, rest, hl, hz, hs⟩ := analyze_ok_shape today acts s h
  subst hs
  have hd := locRuns_map_distance acts (f :: rest) hl
  have hm := locRuns_map_moving_time acts (f :: rest) hl
  have hsd : ((f :: rest).map (fun r => r.distance)).sum =
      ((runsOf acts).map (fun a => a.distance)).sum := by rw [hd]
  have hsm : ((f :: rest).map (fun r => r.moving_time)).sum =
      ((runsOf acts).map (fun a => a.moving_time)).sum := by rw [hm]
  refine ⟨?_, ?_, ?_, ?_⟩
  · rw [statsFor_total_distance, hsd]
  · rw [statsFor_total_time, hsm]
  · intro hle
    rw [statsFor_avg, hsd]
    rw [if_neg (not_lt.mpr hle)]
  · intro hlt
    rw [statsFor_avg, hsd, hsm, if_pos hlt]

/-- Witness for C7 amended at a single-run input. -/
theorem C7_totals_amended_witness :
    (statsFor 0 locA []).total_distance =
      pyRound 2 (((runsOf [actA]).map (fun a => a.distance)).sum / 1000) ∧
    (statsFor 0 locA []).total_time_hours =
      pyRound 1 (((((runsOf [actA]).map (fun a => a.moving_time)).sum : Int) : Rat) / 3600) ∧
    (statsFor 0 locA []).avg_pace =
      pyRound 2 ((((((runsOf [actA]).map (fun a => a.moving_time)).sum : Int) : Rat) / 60) /
        (((runsOf [actA]).map (fun a => a.distance)).sum / 1000)) := by
  have h := C7_totals_amended 0 [actA] (statsFor 0 locA []) rfl
  have hpos : 0 < ((runsOf [actA]).map (fun a => a.distance)).sum / 1000 := by
    have h5 : ((runsOf [actA]).map (fun a => a.distance)).sum = (5000 : Rat) + 0 := rfl
    rw [h5]
    norm_num
  exact ⟨h.1, h.2.1, h.2.2.2 hpos⟩

/-- C7 counterexample: a single qualifying run of 1234 m.  The summary's
total_distance is 1.23 (the value is rounded to two decimals on output),
which is not the claimed sum over qualifying runs divided by 1000, namely
1.234 — the discrepancy of 0.004 is far beyond floating-point
tolerance. -/
theorem C7_rounding_counterexample :
    analyze_wrapped_stats 0 [oddAct] = Except.ok (some (statsFor 0 oddLoc [])) ∧
    ((runsOf [oddAct]).map (fun a => a.distance)).sum / 1000 = 1234/1000 ∧
    (statsFor 0 oddLoc []).total_distance = 123/100 ∧
    ¬ ((123 : Rat)/100 = 1234/1000) := by
  refine ⟨rfl, ?_, ?_, by norm_num⟩
  · have : ((runsOf [oddAct]).map (fun a => a.distance)).sum = 1234 := by
      simp [runsOf, oddAct]
    rw [this]
  · rw [statsFor_total_distance]
    have hq : (([oddLoc] : List LocRun).map (fun r => r.distance)).sum / 1000 =
        (617/500 : Rat) := by
      simp only [List.map_cons, List.map_nil, List.sum_cons, List.sum_nil]
      show (oddLoc.distance + 0) / 1000 = (617/500 : Rat)
      norm_num [oddLoc]
    rw [hq]
    have hp : pow10 2 = 100 := by norm_num [pow10]
    unfold pyRound
    rw [hp]
    have harg : (617/500 : Rat) * 100 = 617/5 := by norm_num
    rw [harg]
    have hfr : roundHalfEven (617/5 : Rat) = 123 := by
      unfold roundHalfEven ratFloor
      have hf : ⌊(617/5 : Rat)⌋ = 123 := by
        rw [Int.floor_eq_iff]
        constructor <;> norm_num
      rw [hf]
      norm_num
    rw [hfr]
    norm_num
